import Mathlib

/-!
# Verification of the Catalog API faceted-search core

A shallow embedding of the dynamic attribute filter engine and facet
aggregator of the Catalog API repository (`app/models.py`,
`app/routers/catalog.py`, `app/routers/product.py`,
`app/routers/properties.py`), together with proofs about its behaviour.

Modelling conventions:

* Database tables are lists in storage (insertion/primary-key) order.
* `request.query_params.items()` (Starlette `ImmutableMultiDict.items()`)
  yields one entry per key: the key keeps the position of its first
  occurrence and carries the value of its last occurrence (the underlying
  `dict` comprehension over all raw pairs).  This is modelled by
  `dictItems` over the raw decoded query pairs.
* A SQL inner join of `products` with one aliased `product_properties`
  table per active filter produces, for each product, one row per
  combination of qualifying assignment rows, i.e. with multiplicity equal
  to the product of the per-filter qualifying-assignment counts.
* `ORDER BY <key>` is modelled as a stable sort on that key (ties keep
  storage order; SQL leaves tie order unspecified, and the engine is free
  to return storage order, which is what the model fixes).
* The legacy SQLAlchemy `Query.all()` on a full entity deduplicates
  returned entities by identity, keeping first occurrence
  (`dedupByUid`); `LIMIT`/`OFFSET` apply to the (possibly duplicated)
  SQL rows *before* that deduplication.
* Python `int(str)` is modelled by `pythonInt` (strip whitespace,
  optional sign, decimal digits, single underscores between digits);
  failure corresponds to an uncaught `ValueError`.
* Accessing an attribute of `None` (e.g. `pp.property.uid` when the
  referenced `Property` row was deleted) corresponds to an uncaught
  `AttributeError`.
* The `product_properties.property_uid` foreign key has no
  `ondelete` action and SQLite does not enforce foreign keys by default,
  so deleting a `Property` leaves assignment rows dangling.
* `HTTPException` raise sites are modelled by distinct constructors of
  `ApiErr`, one per distinct `detail` message in the source.
-/

deriving instance DecidableEq for Except

namespace Catalog

/-! ## Character-list string primitives

Lean's own `String.splitOn`, `String.trim` and the `String` order are
defined by well-founded recursion over byte positions and do not reduce
inside the kernel, so the string operations the source uses are given
structurally recursive definitions over `List Char` (the `data` of the
string), with the same semantics. -/

/-- `key.startswith(pre)` over character lists. -/
def listStartsWith : List Char → List Char → Bool
  | [], _ => true
  | _ :: _, [] => false
  | p :: ps, c :: cs => p == c && listStartsWith ps cs

/-- Python `key.split('_')` over character lists: maximal split on every
underscore, keeping empty components. -/
def splitUnderscore : List Char → List (List Char)
  | [] => [[]]
  | c :: rest =>
    match splitUnderscore rest, c == '_' with
    | r, true => [] :: r
    | [], false => [[c]]
    | g :: gs, false => (c :: g) :: gs

/-- Python `'_'.join(parts)` over character lists. -/
def joinUnderscore : List (List Char) → List Char
  | [] => []
  | [g] => g
  | g :: gs => g ++ '_' :: joinUnderscore gs

/-- Python `str.strip()` whitespace (the ASCII part). -/
def isPySpace (c : Char) : Bool :=
  c == ' ' || c == '\t' || c == '\n' || c == '\r' || c == '\x0b' || c == '\x0c'

/-- Python `str.strip()` over character lists. -/
def trimChars (l : List Char) : List Char :=
  ((l.dropWhile isPySpace).reverse.dropWhile isPySpace).reverse

/-- Codepoint order on characters (what SQL memcmp order on UTF-8 text
induces). -/
def charLt (a b : Char) : Bool := a.toNat < b.toNat

/-- Strict lexicographic order on character lists. -/
def charListLt : List Char → List Char → Bool
  | [], [] => false
  | [], _ :: _ => true
  | _ :: _, [] => false
  | a :: as, b :: bs => charLt a b || (a == b && charListLt as bs)

/-- Strict text-column order on strings. -/
def strLt (a b : String) : Bool := charListLt a.toList b.toList

/-- Reflexive text-column order on strings (the negation of the reverse
strict order, as for any total order). -/
def strLe (a b : String) : Bool := !(strLt b a)

/-- `app.models.PropertyType`: the two property kinds. -/
inductive PropertyType where
  | list
  | int
deriving DecidableEq, Repr

/-- `app.models.Property` row: `uid` (PK), `name`, `type`. -/
structure Property where
  uid : String
  name : String
  type : PropertyType
deriving DecidableEq, Repr

/-- `app.models.PropertyValue` row: legal value of a list-kind property. -/
structure PropertyValue where
  property_uid : String
  value_uid : String
  value : String
deriving DecidableEq, Repr

/-- `app.models.Product` row: `uid` (PK), `name`. -/
structure Product where
  uid : String
  name : String
deriving DecidableEq, Repr

/-- `app.models.ProductProperty` row: an attribute assignment; exactly the
nullable payload columns of the source (`int_value`, `value_uid`). -/
structure ProductProperty where
  product_uid : String
  property_uid : String
  int_value : Option Int
  value_uid : Option String
deriving DecidableEq, Repr

/-- The database state: the four tables, each in storage order. -/
structure State where
  properties : List Property
  property_values : List PropertyValue
  products : List Product
  product_properties : List ProductProperty
deriving DecidableEq, Repr

/-- Error outcomes of the endpoints.  The `HTTPException` constructors
correspond one-to-one to the raise sites in the source (each with its own
`detail` message); `valueError` / `attributeError` are uncaught Python
exceptions escaping the handler. -/
inductive ApiErr where
  | notFound
  | duplicateProductUid
  | unknownProperty (puid : String)
  | missingValueUid (puid : String)
  | invalidValueUid (puid : String) (vuid : String)
  | missingIntValue (puid : String)
  | valueError
  | attributeError
deriving DecidableEq, Repr

/-! ## Basic table lookups -/

/-- `db.query(Property).filter(Property.uid == puid).first()`. -/
def lookupProperty (s : State) (puid : String) : Option Property :=
  s.properties.find? (fun pr => pr.uid == puid)

/-- The `Property.values` relationship: `property_values` rows of one
property, in storage order. -/
def propertyValuesOf (s : State) (puid : String) : List PropertyValue :=
  s.property_values.filter (fun pv => pv.property_uid == puid)

/-- The `Product.properties` relationship: assignment rows of one product,
in storage order. -/
def productAssignments (s : State) (prodUid : String) : List ProductProperty :=
  s.product_properties.filter (fun pp => pp.product_uid == prodUid)

/-- `get_property_value` (`app/routers/catalog.py` and
`app/routers/product.py`): first legal value of the property with the given
`value_uid`, as display text. -/
def get_property_value (s : State) (prop : Property) (value_uid : String) :
    Option String :=
  ((propertyValuesOf s prop.uid).find? (fun pv => pv.value_uid == value_uid)).map
    (fun pv => pv.value)

/-! ## Python `int()` -/

/-- Is `c` an ASCII decimal digit? -/
def isDigit (c : Char) : Bool := '0' ≤ c && c ≤ '9'

/-- Numeric value of an ASCII digit. -/
def digitVal (c : Char) : Nat := c.toNat - '0'.toNat

/-- Digits after the first one: single underscores are allowed between
digits (Python numeric-literal rule used by `int`). -/
def parseDigitsRest (acc : Nat) : List Char → Option Nat
  | [] => some acc
  | '_' :: c :: rest =>
    if isDigit c then parseDigitsRest (acc * 10 + digitVal c) rest else none
  | ['_'] => none
  | c :: rest =>
    if isDigit c then parseDigitsRest (acc * 10 + digitVal c) rest else none

/-- A nonempty digit run (must start with a digit). -/
def parseDigits : List Char → Option Nat
  | [] => none
  | c :: rest => if isDigit c then parseDigitsRest (digitVal c) rest else none

/-- Model of Python `int(str)` on decimal strings: strip surrounding
whitespace, optional single sign, nonempty digit run.  `none` models an
uncaught `ValueError`. -/
def pythonInt (str : String) : Option Int :=
  match trimChars str.toList with
  | '+' :: rest => (parseDigits rest).map (fun n => (n : Int))
  | '-' :: rest => (parseDigits rest).map (fun n => -(n : Int))
  | rest => (parseDigits rest).map (fun n => (n : Int))

/-! ## SQL `ILIKE` -/

/-- SQL `LIKE` pattern matching over characters (`%` = any sequence,
`_` = any single character). -/
def likeMatch : List Char → List Char → Bool
  | [], [] => true
  | [], _ :: _ => false
  | '%' :: ps, [] => likeMatch ps []
  | '%' :: ps, c :: cs => likeMatch ps (c :: cs) || likeMatch ('%' :: ps) cs
  | '_' :: _, [] => false
  | '_' :: ps, _ :: cs => likeMatch ps cs
  | _ :: _, [] => false
  | p :: ps, c :: cs => (p == c) && likeMatch ps cs
termination_by p s => (p.length, s.length)

/-- `Product.name.ilike('%{pat}%')`: case-insensitive `LIKE` against the
pattern `%pat%` (so `pat` may itself contain wildcards). -/
def ilikeContains (s : String) (pat : String) : Bool :=
  likeMatch ('%' :: (pat.toLower.toList ++ ['%'])) s.toLower.toList

/-- The optional `name` query filter; Python truthiness makes the empty
string a no-op (`if name:`). -/
def nameFilterList (products : List Product) (name : Option String) :
    List Product :=
  match name with
  | none => products
  | some n => if n == "" then products else
      products.filter (fun p => ilikeContains p.name n)

/-! ## Filter Parser (`get_catalog` / `catalog_filter` parameter loop) -/

/-- One parsed filter entry: the mutable dict
`{'from': ..., 'to': ..., 'values': [...]}` of the source (`from`/`to`
renamed, being Lean keywords). -/
structure Condition where
  fromBound : Option String
  toBound : Option String
  values : List String
deriving DecidableEq, Repr

/-- The fresh entry inserted on first sight of a property uid. -/
def emptyCondition : Condition :=
  { fromBound := none, toBound := none, values := [] }

/-- Starlette `QueryParams.items()` over the raw decoded query pairs:
one entry per key, at the position of its first occurrence, carrying the
value of its last occurrence (`{k: v for k, v in pairs}`). -/
def dictItems (raw : List (String × String)) : List (String × String) :=
  raw.foldl
    (fun acc kv =>
      if acc.any (fun e => e.1 == kv.1) then
        acc.map (fun e => if e.1 == kv.1 then (e.1, kv.2) else e)
      else acc ++ [kv])
    []

/-- Python-dict update on the `filters` association list: insert a default
entry if the key is new (at the end), then modify the entry in place. -/
def updateFilters (filters : List (String × Condition)) (k : String)
    (f : Condition → Condition) : List (String × Condition) :=
  if filters.any (fun e => e.1 == k) then
    filters.map (fun e => if e.1 == k then (e.1, f e.2) else e)
  else filters ++ [(k, f emptyCondition)]

/-- One iteration of the parameter loop: keys starting with `property_`
are split on `_`; a recognized trailing `from`/`to` component sets the
corresponding bound of the uid rebuilt from the middle components,
otherwise the whole remainder is the uid and the value is appended to its
`values` list. -/
def parseParam (filters : List (String × Condition)) (kv : String × String) :
    List (String × Condition) :=
  if listStartsWith "property_".toList kv.1.toList then
    let parts := splitUnderscore kv.1.toList
    let last := parts.getLastD []
    if last == "from".toList then
      updateFilters filters
        (String.mk (joinUnderscore (parts.drop 1).dropLast))
        (fun c => { c with fromBound := some kv.2 })
    else if last == "to".toList then
      updateFilters filters
        (String.mk (joinUnderscore (parts.drop 1).dropLast))
        (fun c => { c with toBound := some kv.2 })
    else
      updateFilters filters (String.mk (joinUnderscore (parts.drop 1)))
        (fun c => { c with values := c.values ++ [kv.2] })
  else filters

/-- The whole parameter loop over the deduplicated items. -/
def parseFilters (items : List (String × String)) :
    List (String × Condition) :=
  items.foldl parseParam []

/-! ## Query Composer (the per-filter join/where loop) -/

/-- Python truthiness of `Optional[str]`. -/
def truthy : Option String → Bool
  | none => false
  | some s => !(s == "")

/-- The WHERE clause compiled for one filter entry (beyond the
`property_uid` join condition): set membership when `values` is nonempty,
otherwise the numeric bounds that are truthy. -/
inductive CompiledPred where
  | inSet (values : List String)
  | range (lo : Option Int) (hi : Option Int)
deriving DecidableEq, Repr

/-- Compile one condition, mirroring the source branch
`if condition['values']: ... else: if condition['from']: ... int(...);
if condition['to']: ... int(...)`.  `int()` failure is the uncaught
`ValueError`. -/
def compileCondition (c : Condition) : Except ApiErr CompiledPred :=
  if !(c.values == []) then .ok (.inSet c.values)
  else
    match
      (if truthy c.fromBound then
        match pythonInt (c.fromBound.getD "") with
        | some n => Except.ok (some n)
        | none => Except.error ApiErr.valueError
      else Except.ok none : Except ApiErr (Option Int)) with
    | .error e => .error e
    | .ok lo =>
      match
        (if truthy c.toBound then
          match pythonInt (c.toBound.getD "") with
          | some n => Except.ok (some n)
          | none => Except.error ApiErr.valueError
        else Except.ok none : Except ApiErr (Option Int)) with
      | .error e => .error e
      | .ok hi => .ok (.range lo hi)

/-- Compile the whole filter mapping, failing at the first bad bound
(the loop raises at the first failing `int()`). -/
def compileFilters : List (String × Condition) →
    Except ApiErr (List (String × CompiledPred))
  | [] => .ok []
  | (k, c) :: rest =>
    match compileCondition c with
    | .error e => .error e
    | .ok p =>
      match compileFilters rest with
      | .error e => .error e
      | .ok ps => .ok ((k, p) :: ps)

/-- Does an assignment row satisfy a compiled predicate?  SQL three-valued
logic: a NULL column never satisfies `IN` or a `>=`/`<=` comparison; with
no bound present no extra clause is added, so every row passes. -/
def ppMatchesPred (p : CompiledPred) (pp : ProductProperty) : Bool :=
  match p with
  | .inSet vs =>
    match pp.value_uid with
    | some v => vs.contains v
    | none => false
  | .range lo hi =>
    match lo, hi, pp.int_value with
    | none, none, _ => true
    | _, _, none => false
    | some l, none, some n => l ≤ n
    | none, some h, some n => n ≤ h
    | some l, some h, some n => l ≤ n && n ≤ h

/-- Number of assignment rows of a product qualifying for one filter
(join condition `product_uid` and `property_uid` plus the compiled
predicate). -/
def rowCount (s : State) (prodUid : String) (puid : String)
    (p : CompiledPred) : Nat :=
  (s.product_properties.filter
    (fun pp => pp.product_uid == prodUid && pp.property_uid == puid &&
      ppMatchesPred p pp)).length

/-- Join multiplicity of a product: one SQL row per combination of
qualifying assignment rows across the aliased joins. -/
def multiplicity (s : State) (prodUid : String)
    (cps : List (String × CompiledPred)) : Nat :=
  cps.foldl (fun acc e => acc * rowCount s prodUid e.1 e.2) 1

/-- The joined row list: each (name-filtered) product, in storage order,
repeated with its join multiplicity. -/
def joinRows (s : State) (base : List Product)
    (cps : List (String × CompiledPred)) : List Product :=
  base.flatMap (fun p => List.replicate (multiplicity s p.uid cps) p)

/-- The two legal values of the `sort` query parameter
(`regex='^(uid|name)$'`). -/
inductive SortKey where
  | uid
  | name
deriving DecidableEq, Repr

/-- The sort column. -/
def sortVal (k : SortKey) (p : Product) : String :=
  match k with
  | .uid => p.uid
  | .name => p.name

/-- Stable insertion of a row into a sorted row list: the new row goes
after all rows of equal key. -/
def insertRow (k : SortKey) (x : Product) : List Product → List Product
  | [] => [x]
  | y :: ys => if strLt (sortVal k x) (sortVal k y) then x :: y :: ys
      else y :: insertRow k x ys

/-- `ORDER BY` as a stable sort of the joined rows (ties keep storage
order): rows are inserted left to right, each after the rows of equal
key already placed. -/
def sortRows (k : SortKey) (rows : List Product) : List Product :=
  rows.foldl (fun acc x => insertRow k x acc) []

/-- Deduplication worker: drop every row whose uid was already seen. -/
def dedupByUidAux (seen : List String) : List Product → List Product
  | [] => []
  | p :: ps =>
    if seen.contains p.uid then dedupByUidAux seen ps
    else p :: dedupByUidAux (p.uid :: seen) ps

/-- Entity deduplication by primary key, keeping the first occurrence:
`DISTINCT` on the `products` row (uid is the PK) and equally the legacy
SQLAlchemy identity-based uniquing of `Query.all()`. -/
def dedupByUid (l : List Product) : List Product :=
  dedupByUidAux [] l

/-! ## Response serialization -/

/-- The value part of one serialized assignment: `value_uid`/`value` keys
for list-kind properties, `value` only (the raw `int_value`) otherwise. -/
inductive PropValueOut where
  | intVal (value : Option Int)
  | listVal (value_uid : Option String) (value : Option String)
deriving DecidableEq, Repr

/-- One serialized assignment (`prop_data` dict of the source). -/
structure PropOut where
  uid : String
  name : String
  val : PropValueOut
deriving DecidableEq, Repr

/-- One serialized product. -/
structure ProductOut where
  uid : String
  name : String
  properties : List PropOut
deriving DecidableEq, Repr

/-- Serialize one assignment: `pp.property` is the FK-resolved `Property`
row; when it no longer exists the relationship loads `None` and
`pp.property.uid` raises `AttributeError`.  For list-kind properties
`value` is looked up only when `value_uid` is truthy. -/
def serializeAssignment (s : State) (pp : ProductProperty) :
    Except ApiErr PropOut :=
  match lookupProperty s pp.property_uid with
  | none => .error .attributeError
  | some prop =>
    if prop.type == PropertyType.list then
      .ok { uid := prop.uid, name := prop.name,
            val := .listVal pp.value_uid
              (if truthy pp.value_uid then
                get_property_value s prop (pp.value_uid.getD "")
              else none) }
    else
      .ok { uid := prop.uid, name := prop.name,
            val := .intVal pp.int_value }

/-- The `for pp in prod.properties` serialization loop. -/
def serializeAssignments (s : State) :
    List ProductProperty → Except ApiErr (List PropOut)
  | [] => .ok []
  | pp :: rest =>
    match serializeAssignment s pp with
    | .error e => .error e
    | .ok out =>
      match serializeAssignments s rest with
      | .error e => .error e
      | .ok outs => .ok (out :: outs)

/-- Serialize one product with all its assignments. -/
def serializeProduct (s : State) (p : Product) : Except ApiErr ProductOut :=
  match serializeAssignments s (productAssignments s p.uid) with
  | .error e => .error e
  | .ok outs => .ok { uid := p.uid, name := p.name, properties := outs }

/-- The `for prod in products` serialization loop of the listing. -/
def serializeProducts (s : State) :
    List Product → Except ApiErr (List ProductOut)
  | [] => .ok []
  | p :: rest =>
    match serializeProduct s p with
    | .error e => .error e
    | .ok out =>
      match serializeProducts s rest with
      | .error e => .error e
      | .ok outs => .ok (out :: outs)

/-- The listing response body. -/
structure CatalogResponse where
  products : List ProductOut
  count : Nat
deriving DecidableEq, Repr

/-! ## The `GET /catalog/` endpoint -/

/-- The joined row list of either endpoint's query: name filter then one
join per compiled filter. -/
def listingRows (s : State) (name : Option String)
    (cps : List (String × CompiledPred)) : List Product :=
  joinRows s (nameFilterList s.products name) cps

/-- The distinct matched product set (`query.distinct()` on the
`products` entity). -/
def matchedProducts (s : State) (name : Option String)
    (cps : List (String × CompiledPred)) : List Product :=
  dedupByUid (listingRows s name cps)

/-- The page entities: `OFFSET`/`LIMIT` applied to the ordered — still
duplicated — row list, then ORM entity uniquing. -/
def pageEntities (s : State) (page page_size : Nat) (name : Option String)
    (sort : SortKey) (cps : List (String × CompiledPred)) : List Product :=
  dedupByUid (((sortRows sort (listingRows s name cps)).drop
    ((page - 1) * page_size)).take page_size)

/-- The listing pipeline after predicate compilation: the `DISTINCT`
count, the page, serialization. -/
def catalogExec (s : State) (page page_size : Nat) (name : Option String)
    (sort : SortKey) (cps : List (String × CompiledPred)) :
    Except ApiErr CatalogResponse :=
  match serializeProducts s (pageEntities s page page_size name sort cps) with
  | .error e => .error e
  | .ok outs =>
    .ok { products := outs, count := (matchedProducts s name cps).length }

/-- The listing endpoint from the parsed filter mapping. -/
def catalogCore (s : State) (page page_size : Nat) (name : Option String)
    (sort : SortKey) (filters : List (String × Condition)) :
    Except ApiErr CatalogResponse :=
  match compileFilters filters with
  | .error e => .error e
  | .ok cps => catalogExec s page page_size name sort cps

/-- `get_catalog` (`app/routers/catalog.py`): the full endpoint on the raw
decoded query pairs. -/
def get_catalog (s : State) (page page_size : Nat) (name : Option String)
    (sort : SortKey) (raw : List (String × String)) :
    Except ApiErr CatalogResponse :=
  catalogCore s page page_size name sort (parseFilters (dictItems raw))

/-! ## The `GET /catalog/filter/` endpoint -/

/-- Per-property facet statistics. -/
inductive FacetStat where
  | groups (g : List (Option String × Nat))
  | range (min_value max_value : Option Int)
deriving DecidableEq, Repr

/-- The facet response: `count` plus one stat per schema property, in
schema storage order. -/
structure FacetResponse where
  count : Nat
  stats : List (String × FacetStat)
deriving DecidableEq, Repr

/-- `groups[pp.value_uid] = groups.get(pp.value_uid, 0) + 1`: bump the
(unique) key in place, appending a fresh key at the end. -/
def bumpKey : List (Option String × Nat) → Option String →
    List (Option String × Nat)
  | [], k => [(k, 1)]
  | e :: rest, k =>
    if e.1 == k then (e.1, e.2 + 1) :: rest else e :: bumpKey rest k

/-- The grouping loop over the assignment rows of one property. -/
def buildGroups (rows : List ProductProperty) :
    List (Option String × Nat) :=
  rows.foldl (fun g pp => bumpKey g pp.value_uid) []

/-- The assignment rows feeding one property's facet: rows on that
property whose product is in the matched set
(`product_uid.in_(product_ids)`). -/
def facetRows (s : State) (ids : List String) (puid : String) :
    List ProductProperty :=
  s.product_properties.filter
    (fun pp => ids.contains pp.product_uid && pp.property_uid == puid)

/-- The facet statistic of one property over its matched assignment
rows. -/
def facetStatOf (prop : Property) (rows : List ProductProperty) :
    FacetStat :=
  if prop.type == PropertyType.list then .groups (buildGroups rows)
  else
    let values := rows.filterMap (fun pp => pp.int_value)
    if !(values == []) then .range values.min? values.max?
    else .range none none

/-- The facet pipeline after predicate compilation. -/
def facetExec (s : State) (name : Option String)
    (cps : List (String × CompiledPred)) : Except ApiErr FacetResponse :=
  .ok { count := (matchedProducts s name cps).length,
        stats := s.properties.map
          (fun prop =>
            (prop.uid, facetStatOf prop (facetRows s
              ((matchedProducts s name cps).map Product.uid) prop.uid))) }

/-- The facet endpoint from the parsed filter mapping. -/
def facetCore (s : State) (name : Option String)
    (filters : List (String × Condition)) : Except ApiErr FacetResponse :=
  match compileFilters filters with
  | .error e => .error e
  | .ok cps => facetExec s name cps

/-- `catalog_filter` (`app/routers/catalog.py`): the full facet endpoint
on the raw decoded query pairs. -/
def catalog_filter (s : State) (name : Option String)
    (raw : List (String × String)) : Except ApiErr FacetResponse :=
  facetCore s name (parseFilters (dictItems raw))

/-! ## The `GET /product/{uid}` endpoint -/

/-- `get_product` (`app/routers/product.py`). -/
def get_product (s : State) (uid : String) : Except ApiErr ProductOut :=
  match s.products.find? (fun p => p.uid == uid) with
  | none => .error .notFound
  | some p => serializeProduct s p

/-! ## The `POST /product/` endpoint -/

/-- `app.schemas.ProductPropertyCreate`. -/
structure ProductPropertyCreate where
  uid : String
  value_uid : Option String
  value : Option Int
deriving DecidableEq, Repr

/-- `app.schemas.ProductCreate`. -/
structure ProductCreate where
  uid : String
  name : String
  properties : List ProductPropertyCreate
deriving DecidableEq, Repr

/-- The legality check of a supplied `value_uid`:
`query(Property).join(Property.values).filter(Property.uid == puid,
PropertyValue.value_uid == vuid).first()` (the property row itself is
already known to exist at this point). -/
def legalValue (s : State) (puid : String) (vuid : String) : Bool :=
  s.property_values.any
    (fun pv => pv.property_uid == puid && pv.value_uid == vuid)

/-- The attribute-validation loop of `create_product`: validates each
supplied attribute in order and builds the assignment rows; nothing is
persisted while it runs (rows are only accumulated on the in-memory
`product.properties`). -/
def validateAttrs (s : State) (prodUid : String) :
    List ProductPropertyCreate → Except ApiErr (List ProductProperty)
  | [] => .ok []
  | a :: rest =>
    match lookupProperty s a.uid with
    | none => .error (.unknownProperty a.uid)
    | some prop =>
      if prop.type == PropertyType.list then
        if !(truthy a.value_uid) then .error (.missingValueUid a.uid)
        else if !(legalValue s a.uid (a.value_uid.getD "")) then
          .error (.invalidValueUid a.uid (a.value_uid.getD ""))
        else
          match validateAttrs s prodUid rest with
          | .error e => .error e
          | .ok rows =>
            .ok ({ product_uid := prodUid, property_uid := a.uid,
                   int_value := none, value_uid := a.value_uid } :: rows)
      else
        match a.value with
        | none => .error (.missingIntValue a.uid)
        | some v =>
          match validateAttrs s prodUid rest with
          | .error e => .error e
          | .ok rows =>
            .ok ({ product_uid := prodUid, property_uid := a.uid,
                   int_value := some v, value_uid := none } :: rows)

/-- `create_product` (`app/routers/product.py`): duplicate-uid check, then
the validation loop, then — only if everything succeeded — `db.add` and
`db.commit` persisting the product and its assignment rows. -/
def create_product (s : State) (req : ProductCreate) : Except ApiErr State :=
  if s.products.any (fun p => p.uid == req.uid) then
    .error .duplicateProductUid
  else
    match validateAttrs s req.uid req.properties with
    | .error e => .error e
    | .ok rows =>
      .ok { s with
            products := s.products ++ [{ uid := req.uid, name := req.name }],
            product_properties := s.product_properties ++ rows }

/-- The observable store after a `create_product` call: on an error the
handler raised before `db.add`/`db.commit`, so the store is untouched. -/
def runCreate (s : State) (req : ProductCreate) : State :=
  match create_product s req with
  | .ok s' => s'
  | .error _ => s

/-! ## The `DELETE /properties/{uid}` endpoint -/

/-- `delete_property` (`app/routers/properties.py`): removes the property
row and (by the `all, delete` relationship cascade) its `property_values`
rows; assignment rows referencing it are left in place — the
`product_properties.property_uid` FK has no delete action and SQLite does
not enforce foreign keys by default. -/
def delete_property (s : State) (uid : String) : Except ApiErr State :=
  if s.properties.any (fun p => p.uid == uid) then
    .ok { s with
          properties := s.properties.filter (fun p => !(p.uid == uid)),
          property_values :=
            s.property_values.filter (fun pv => !(pv.property_uid == uid)) }
  else .error .notFound

/-! ## Spec-side definitions and derived notions used by the theorems -/

/-- Python truthiness of an attribute-validation outcome, mirroring the
branch structure of the `create_product` loop: the attribute resolves and
carries the payload its property kind requires (a truthy, legal
`value_uid` for list-kind; a non-`None` integer for int-kind). -/
def attrOK (s : State) (b : ProductPropertyCreate) : Bool :=
  match lookupProperty s b.uid with
  | none => false
  | some prop =>
    if prop.type == PropertyType.list then
      truthy b.value_uid && legalValue s b.uid (b.value_uid.getD "")
    else b.value.isSome

/-- Erase the range bounds of one property's filter entry (what ignoring
the `_from`/`_to` keys for that property amounts to). -/
def clearBounds (filters : List (String × Condition)) (x : String) :
    List (String × Condition) :=
  filters.map (fun e =>
    if e.1 == x then (e.1, { e.2 with fromBound := none, toBound := none })
    else e)

/-- Total of the per-value counts of a facet group map. -/
def sumCounts (g : List (Option String × Nat)) : Nat :=
  (g.map (fun e => e.2)).sum

/-- The sort column of a serialized product. -/
def outSortVal (k : SortKey) (po : ProductOut) : String :=
  match k with
  | .uid => po.uid
  | .name => po.name

/-- The order the requested sort key induces on rows. -/
def rowLE (k : SortKey) (a b : Product) : Prop :=
  sortVal k a ≤ sortVal k b

/-- Spec-side reading of one filter, in the claim's words: the product has
at least one assignment on that property satisfying the predicate.  The
Attribute Schema Store (`properties` / `property_values`) is not
consulted. -/
def specFilterSatisfied (s : State) (prod : Product) (puid : String)
    (p : CompiledPred) : Bool :=
  s.product_properties.any
    (fun pp => pp.product_uid == prod.uid && pp.property_uid == puid &&
      ppMatchesPred p pp)

/-- Spec-side matched set: the (name-filtered) products satisfying every
filter conjunctively. -/
def specMatchedSet (s : State) (name : Option String)
    (cps : List (String × CompiledPred)) : List Product :=
  (nameFilterList s.products name).filter
    (fun prod => cps.all (fun e => specFilterSatisfied s prod e.1 e.2))

/-! ## Concrete states used by the claim theorems -/

/-- One integer property `p`; products `a`/`b`/`c` holding 5/10/15. -/
def s7w : State :=
  { properties := [{ uid := "p", name := "P", type := .int }],
    property_values := [],
    products := [{ uid := "a", name := "A" }, { uid := "b", name := "B" },
                 { uid := "c", name := "C" }],
    product_properties :=
      [{ product_uid := "a", property_uid := "p", int_value := some 5,
         value_uid := none },
       { product_uid := "b", property_uid := "p", int_value := some 10,
         value_uid := none },
       { product_uid := "c", property_uid := "p", int_value := some 15,
         value_uid := none }] }

/-- Product `a` has two assignments (5 and 7) on integer property `p`,
product `b` has one (6). -/
def s1w : State :=
  { properties := [{ uid := "p", name := "P", type := .int }],
    property_values := [],
    products := [{ uid := "a", name := "A" }, { uid := "b", name := "B" }],
    product_properties :=
      [{ product_uid := "a", property_uid := "p", int_value := some 5,
         value_uid := none },
       { product_uid := "a", property_uid := "p", int_value := some 7,
         value_uid := none },
       { product_uid := "b", property_uid := "p", int_value := some 6,
         value_uid := none }] }

/-- Two products with the same name, stored with uid `b` before uid
`a`. -/
def s4w : State :=
  { properties := [], property_values := [],
    products := [{ uid := "b", name := "x" }, { uid := "a", name := "x" }],
    product_properties := [] }

/-- One list property `p` with legal values `v1`/`v2`; the single product
`a` carries two assignments on `p`. -/
def s2w : State :=
  { properties := [{ uid := "p", name := "P", type := .list }],
    property_values :=
      [{ property_uid := "p", value_uid := "v1", value := "V1" },
       { property_uid := "p", value_uid := "v2", value := "V2" }],
    products := [{ uid := "a", name := "A" }],
    product_properties :=
      [{ product_uid := "a", property_uid := "p", int_value := none,
         value_uid := some "v1" },
       { product_uid := "a", property_uid := "p", int_value := none,
         value_uid := some "v2" }] }

/-- Product `P` holds an assignment on list property `q`. -/
def s3pre : State :=
  { properties := [{ uid := "q", name := "Q", type := .list }],
    property_values :=
      [{ property_uid := "q", value_uid := "v", value := "V" }],
    products := [{ uid := "P", name := "Prod" }],
    product_properties :=
      [{ product_uid := "P", property_uid := "q", int_value := none,
         value_uid := some "v" }] }

/-- `s3pre` after `DELETE /properties/q`: the assignment row dangles. -/
def s3post : State :=
  { properties := [], property_values := [],
    products := [{ uid := "P", name := "Prod" }],
    product_properties :=
      [{ product_uid := "P", property_uid := "q", int_value := none,
         value_uid := some "v" }] }

/-- A store already holding a product with uid `x` (and no properties). -/
def s8w : State :=
  { properties := [], property_values := [],
    products := [{ uid := "x", name := "X" }], product_properties := [] }

/-- A creation request whose uid duplicates `s8w`'s product and whose
single attribute references the unknown property `nope`. -/
def req8dup : ProductCreate :=
  { uid := "x", name := "X2",
    properties := [{ uid := "nope", value_uid := none, value := none }] }

/-- A creation request with a fresh uid whose single attribute references
the unknown property `nope`. -/
def req8fresh : ProductCreate :=
  { uid := "y", name := "Y",
    properties := [{ uid := "nope", value_uid := none, value := none }] }

/-- One list property `p`; products `a` (value `v1`) and `b` (value
`v2`). -/
def s5w : State :=
  { properties := [{ uid := "p", name := "P", type := .list }],
    property_values :=
      [{ property_uid := "p", value_uid := "v1", value := "V1" },
       { property_uid := "p", value_uid := "v2", value := "V2" }],
    products := [{ uid := "a", name := "A" }, { uid := "b", name := "B" }],
    product_properties :=
      [{ product_uid := "a", property_uid := "p", int_value := none,
         value_uid := some "v1" },
       { product_uid := "b", property_uid := "p", int_value := none,
         value_uid := some "v2" }] }

/-- A request carrying both a bare set key and a `_from` key for the same
property uid `p`. -/
def raw5 : List (String × String) :=
  [("property_p", "v1"), ("property_p_from", "5")]

/-- One integer property `p`; the single product `a` holds 5 on it. -/
def s10w : State :=
  { properties := [{ uid := "p", name := "P", type := .int }],
    property_values := [],
    products := [{ uid := "a", name := "A" }],
    product_properties :=
      [{ product_uid := "a", property_uid := "p", int_value := some 5,
         value_uid := none }] }

/-- A request filtering on a property uid absent from every schema. -/
def raw10 : List (String × String) := [("property_zzz", "v")]

/-- The facet response of `catalog_filter s2w none []`. -/
def resp2w : FacetResponse :=
  { count := 1,
    stats := [("p", FacetStat.groups [(some "v1", 1), (some "v2", 1)])] }

/-- The listing response of `get_catalog s4w 1 10 none .name []`. -/
def resp4w : CatalogResponse :=
  { products := [{ uid := "b", name := "x", properties := [] },
                 { uid := "a", name := "x", properties := [] }],
    count := 2 }

/-! # Theorems -/

/-! ## The text-column order is a total order -/

theorem charLt_trans {a b c : Char} (h1 : charLt a b = true)
    (h2 : charLt b c = true) : charLt a c = true := by
  simp only [charLt, decide_eq_true_eq] at *
  omega

theorem charLt_irrefl (a : Char) : charLt a a = false := by
  simp [charLt]

theorem charLt_connex {a b : Char} (h1 : charLt a b = false)
    (h2 : charLt b a = false) : a = b := by
  simp only [charLt, decide_eq_false_iff_not, not_lt] at h1 h2
  have : a.toNat = b.toNat := Nat.le_antisymm h2 h1
  exact Char.eq_of_val_eq (UInt32.ext this)

theorem charListLt_irrefl : ∀ l : List Char, charListLt l l = false
  | [] => rfl
  | a :: as => by
    simp [charListLt, charLt_irrefl, charListLt_irrefl as]

theorem charListLt_trans :
    ∀ {a b c : List Char}, charListLt a b = true → charListLt b c = true →
      charListLt a c = true
  | [], [], _, h1, _ => by simp [charListLt] at h1
  | [], _ :: _, [], _, h2 => by simp [charListLt] at h2
  | [], _ :: _, _ :: _, _, _ => rfl
  | _ :: _, [], _, h1, _ => by simp [charListLt] at h1
  | _ :: _, _ :: _, [], _, h2 => by simp [charListLt] at h2
  | x :: xs, y :: ys, z :: zs, h1, h2 => by
    simp only [charListLt, Bool.or_eq_true, Bool.and_eq_true,
      beq_iff_eq] at h1 h2 ⊢
    rcases h1 with h1 | ⟨rfl, h1⟩
    · rcases h2 with h2 | ⟨rfl, _⟩
      · exact Or.inl (charLt_trans h1 h2)
      · exact Or.inl h1
    · rcases h2 with h2 | ⟨rfl, h2⟩
      · exact Or.inl h2
      · exact Or.inr ⟨rfl, charListLt_trans h1 h2⟩

theorem charListLt_asymm {a b : List Char} (h : charListLt a b = true) :
    charListLt b a = false := by
  by_contra h2
  rw [Bool.not_eq_false] at h2
  have := charListLt_trans h h2
  rw [charListLt_irrefl] at this
  exact Bool.false_ne_true this

theorem charListLt_connex :
    ∀ {a b : List Char}, charListLt a b = false → charListLt b a = false →
      a = b
  | [], [], _, _ => rfl
  | [], _ :: _, h1, _ => by simp [charListLt] at h1
  | _ :: _, [], _, h2 => by simp [charListLt] at h2
  | x :: xs, y :: ys, h1, h2 => by
    simp only [charListLt, Bool.or_eq_false_iff, Bool.and_eq_false_iff,
      beq_eq_false_iff_ne, ne_eq] at h1 h2
    obtain ⟨hxy, h1'⟩ := h1
    obtain ⟨hyx, h2'⟩ := h2
    have hxyeq : x = y := charLt_connex hxy hyx
    subst hxyeq
    rcases h1' with h1' | h1'
    · exact absurd rfl h1'
    · rcases h2' with h2' | h2'
      · exact absurd rfl h2'
      · rw [charListLt_connex h1' h2']

theorem strLe_of_strLt {a b : String} (h : strLt a b = true) :
    strLe a b = true := by
  unfold strLe
  rw [strLt, charListLt_asymm h]
  rfl

theorem strLe_of_not_strLt {a b : String} (h : strLt b a = false) :
    strLe a b = true := by
  simp [strLe, h]

theorem strLe_trans {a b c : String} (h1 : strLe a b = true)
    (h2 : strLe b c = true) : strLe a c = true := by
  simp only [strLe, strLt, Bool.not_eq_true'] at h1 h2 ⊢
  by_contra hca
  rw [Bool.not_eq_false] at hca
  cases hb : charListLt b.toList c.toList with
  | true =>
    have h3 := charListLt_trans hb hca
    exact absurd (h3.symm.trans h1) (by decide)
  | false =>
    have hcb := charListLt_connex h2 hb
    rw [hcb] at hca
    exact absurd (hca.symm.trans h1) (by decide)

/-- **C7**: On an integer property with assignments `{5, 10, 15}`,
`from=10` matches exactly the products holding `{10, 15}`, `to=10`
matches exactly those holding `{5, 10}` (both bounds inclusive), and
`from=16` matches none. -/
theorem c7_range_boundaries :
    (get_catalog s7w 1 10 none .uid [("property_p_from", "10")]).map
        (fun r => (r.products.map (fun po => po.uid), r.count))
      = Except.ok (["b", "c"], 2) ∧
    (get_catalog s7w 1 10 none .uid [("property_p_to", "10")]).map
        (fun r => (r.products.map (fun po => po.uid), r.count))
      = Except.ok (["a", "b"], 2) ∧
    (get_catalog s7w 1 10 none .uid [("property_p_from", "16")]).map
        (fun r => (r.products.map (fun po => po.uid), r.count))
      = Except.ok ([], 0) := by
  refine ⟨?_, ?_, ?_⟩ <;> decide

/-- **C9**: A `_from` key whose value is the non-numeric, non-empty
string `abc`, with no accompanying set values for that property, makes
both the listing and the facet endpoint raise the uncaught `ValueError`
from `int()` instead of returning a result. -/
theorem c9_nonnumeric_bound_value_error :
    get_catalog s7w 1 10 none .uid [("property_p_from", "abc")]
      = Except.error ApiErr.valueError ∧
    catalog_filter s7w none [("property_p_from", "abc")]
      = Except.error ApiErr.valueError := by
  refine ⟨?_, ?_⟩ <;> decide

/-- **C1** (code bug): with `page_size = 2 ≥ count = 2`, the returned
page holds a single uid, because the page query lacks the `DISTINCT`
the count query has: product `a`'s two qualifying assignments occupy
both `LIMIT` slots and collapse to one entity after ORM uniquing. -/
theorem c1_page_misses_matching_product :
    (get_catalog s1w 1 2 none .uid [("property_p_from", "1")]).map
        (fun r => (r.products.map (fun po => po.uid), r.count))
      = Except.ok (["a"], 2) ∧
    (["a"] : List String).length ≠ 2 := by
  refine ⟨?_, ?_⟩ <;> decide

/-- **C3** (code bug): deleting property `q` leaves product `P`'s
assignment dangling, and both read paths then crash with the uncaught
`AttributeError` from `pp.property.uid` instead of treating the
assignment as absent. -/
theorem c3_dangling_reference_crashes_reads :
    delete_property s3pre "q" = Except.ok s3post ∧
    get_product s3post "P" = Except.error ApiErr.attributeError ∧
    get_catalog s3post 1 10 none .uid [] = Except.error ApiErr.attributeError := by
  refine ⟨?_, ?_, ?_⟩ <;> decide

/-- **C6** (code bug): repeated bare keys for the same property do not
accumulate — Starlette's `query_params.items()` yields one entry per key
with the last value, so only `v2` reaches the parser; uid reconstruction
around a trailing `_from`/`_to` suffix does work, including uids with
underscores. -/
theorem c6_repeated_keys_do_not_accumulate :
    parseFilters (dictItems [("property_p", "v1"), ("property_p", "v2")])
      = [("p", { fromBound := none, toBound := none, values := ["v2"] })] ∧
    parseFilters (dictItems [("property_a_b", "x"), ("property_a_b_from", "1"),
        ("property_a_b_to", "2")])
      = [("a_b", { fromBound := some "1", toBound := some "2",
                   values := ["x"] })] := by
  refine ⟨?_, ?_⟩ <;> decide

/-- **C2** (counterexample): product `a` is the only matched product and
has an assignment on `p`, yet the per-value counts of `p`'s group map sum
to 2, not 1 — the aggregator counts assignment rows, not products. -/
theorem c2_counterexample_multi_assignment :
    (catalog_filter s2w none []).map (fun r => (r.count, r.stats))
      = Except.ok (1, [("p", FacetStat.groups
          [(some "v1", 1), (some "v2", 1)])]) ∧
    sumCounts [(some "v1", 1), (some "v2", 1)] = 2 ∧
    (s2w.products.filter (fun prod => s2w.product_properties.any
        (fun pp => pp.product_uid == prod.uid &&
          pp.property_uid == "p"))).length = 1 ∧
    (2 : Nat) ≠ 1 := by
  refine ⟨?_, ?_, ?_, ?_⟩ <;> decide

/-- **C4** (counterexample): under the `name` sort, the two equal-named
products come back in storage order `b, a`, not in the uid order `a, b`
the claimed tie-break requires. -/
theorem c4_counterexample_no_uid_tiebreak :
    (get_catalog s4w 1 10 none .name []).map
        (fun r => r.products.map (fun po => (po.name, po.uid)))
      = Except.ok [("x", "b"), ("x", "a")] ∧
    strLt "a" "b" = true := by
  refine ⟨?_, ?_⟩ <;> decide

/-- **C8** (counterexample): a creation request that carries an attribute
on the unknown property `nope` but whose uid duplicates an existing
product fails with the duplicate-uid error, not with `UnknownProperty` —
the duplicate check runs first. -/
theorem c8_counterexample_duplicate_uid_first :
    create_product s8w req8dup = Except.error ApiErr.duplicateProductUid ∧
    (req8dup.properties.any
      (fun a => (lookupProperty s8w a.uid).isNone)) = true ∧
    Except.error (α := State) ApiErr.duplicateProductUid
      ≠ Except.error (ApiErr.unknownProperty "nope") := by
  refine ⟨?_, ?_, ?_⟩ <;> decide

/-! ## Sorting lemmas -/

/-- Rows of the output page, pairwise ordered by the sort column. -/
def SortedBy (k : SortKey) (l : List Product) : Prop :=
  List.Pairwise (fun a b => strLe (sortVal k a) (sortVal k b) = true) l

theorem mem_insertRow {k : SortKey} {x a : Product} :
    ∀ {l : List Product}, a ∈ insertRow k x l ↔ a = x ∨ a ∈ l
  | [] => by simp [insertRow]
  | y :: ys => by
    rw [insertRow]
    split
    · simp
    · simp only [List.mem_cons, mem_insertRow (l := ys)]
      tauto

theorem sortedBy_insertRow {k : SortKey} {x : Product} :
    ∀ {l : List Product}, SortedBy k l → SortedBy k (insertRow k x l)
  | [], _ => List.pairwise_singleton _ _
  | y :: ys, h => by
    simp only [SortedBy] at h ⊢
    rw [List.pairwise_cons] at h
    rw [insertRow]
    split
    · rename_i hlt
      refine List.pairwise_cons.mpr ⟨?_, List.pairwise_cons.mpr h⟩
      intro b hb
      rcases List.mem_cons.mp hb with rfl | hb
      · exact strLe_of_strLt hlt
      · exact strLe_trans (strLe_of_strLt hlt) (h.1 b hb)
    · rename_i hnlt
      rw [Bool.not_eq_true] at hnlt
      refine List.pairwise_cons.mpr ⟨?_, sortedBy_insertRow h.2⟩

      intro b hb
      rcases mem_insertRow.mp hb with rfl | hb
      · exact strLe_of_not_strLt hnlt
      · exact h.1 b hb

theorem sortedBy_foldl_insertRow {k : SortKey} :
    ∀ (rows : List Product) (acc : List Product), SortedBy k acc →
      SortedBy k (rows.foldl (fun l x => insertRow k x l) acc)
  | [], _, h => h
  | r :: rest, acc, h =>
    sortedBy_foldl_insertRow rest (insertRow k r acc) (sortedBy_insertRow h)

theorem sortedBy_sortRows (k : SortKey) (rows : List Product) :
    SortedBy k (sortRows k rows) :=
  sortedBy_foldl_insertRow rows [] List.Pairwise.nil

theorem mem_foldl_insertRow {k : SortKey} {a : Product} :
    ∀ {rows acc : List Product},
      a ∈ rows.foldl (fun l x => insertRow k x l) acc ↔ a ∈ acc ∨ a ∈ rows
  | [], acc => by simp
  | r :: rest, acc => by
    rw [List.foldl_cons, mem_foldl_insertRow, mem_insertRow]
    simp only [List.mem_cons]
    tauto

theorem mem_sortRows {k : SortKey} {a : Product} {rows : List Product} :
    a ∈ sortRows k rows ↔ a ∈ rows := by
  rw [sortRows, mem_foldl_insertRow]
  simp

/-! ## Deduplication lemmas -/

theorem contains_of_mem {l : List String} {a : String} (h : a ∈ l) :
    l.contains a = true :=
  List.elem_eq_true_of_mem h

theorem contains_eq_false {l : List String} {a : String} (h : a ∉ l) :
    l.contains a = false := by
  cases hc : l.contains a
  · rfl
  · exact absurd (List.elem_iff.mp hc) h

theorem dedupByUidAux_sublist (seen : List String) :
    ∀ l : List Product, List.Sublist (dedupByUidAux seen l) l := by
  intro l
  induction l generalizing seen with
  | nil => exact List.Sublist.refl _
  | cons p ps ih =>
    rw [dedupByUidAux]
    split
    · exact (ih seen).cons p
    · exact (ih (p.uid :: seen)).cons₂ p

theorem dedupByUid_sublist (l : List Product) :
    List.Sublist (dedupByUid l) l :=
  dedupByUidAux_sublist [] l

theorem dedupByUidAux_replicate_skip (seen : List String) (p : Product)
    (h : seen.contains p.uid = true) :
    ∀ (k : Nat) (l : List Product),
      dedupByUidAux seen (List.replicate k p ++ l) = dedupByUidAux seen l
  | 0, l => rfl
  | k + 1, l => by
    rw [List.replicate_succ, List.cons_append, dedupByUidAux, if_pos h]
    exact dedupByUidAux_replicate_skip seen p h k l

theorem dedupByUidAux_flatMap_replicate (m : Product → Nat) :
    ∀ (base : List Product) (seen : List String),
      (base.map Product.uid).Nodup →
      (∀ u ∈ seen, u ∉ base.map Product.uid) →
      dedupByUidAux seen (base.flatMap (fun p => List.replicate (m p) p))
        = base.filter (fun p => !(m p == 0))
  | [], _, _, _ => rfl
  | p :: base, seen, hnd, hseen => by
    rw [List.map_cons, List.nodup_cons] at hnd
    rw [List.flatMap_cons, List.filter_cons]
    cases hm : m p with
    | zero =>
      rw [List.replicate_zero, List.nil_append, if_neg (by simp)]
      exact dedupByUidAux_flatMap_replicate m base seen hnd.2
        (fun u hu hmem => hseen u hu (List.mem_cons_of_mem _ hmem))
    | succ k =>
      have hc : seen.contains p.uid = false :=
        contains_eq_false
          (fun hmem => hseen p.uid hmem (List.mem_cons_self _ _))
      rw [List.replicate_succ, List.cons_append, dedupByUidAux,
        if_neg (by rw [hc]; simp), if_pos (by simp)]
      have hskip := dedupByUidAux_replicate_skip (p.uid :: seen) p
        (contains_of_mem (List.mem_cons_self _ _)) k
        (base.flatMap (fun q => List.replicate (m q) q))
      rw [hskip]
      refine congrArg (p :: ·) ?_
      exact dedupByUidAux_flatMap_replicate m base (p.uid :: seen) hnd.2
        (by
          intro u hu
          rcases List.mem_cons.mp hu with rfl | hu
          · exact hnd.1
          · exact fun hmem => hseen u hu (List.mem_cons_of_mem _ hmem))

theorem dedupByUid_flatMap_replicate (m : Product → Nat)
    (base : List Product) (hnd : (base.map Product.uid).Nodup) :
    dedupByUid (base.flatMap (fun p => List.replicate (m p) p))
      = base.filter (fun p => !(m p == 0)) :=
  dedupByUidAux_flatMap_replicate m base [] hnd (by simp)

/-! ## Join multiplicity and the matched set -/

theorem multiplicity_eq_prod (s : State) (prodUid : String)
    (cps : List (String × CompiledPred)) :
    multiplicity s prodUid cps
      = (cps.map (fun e => rowCount s prodUid e.1 e.2)).prod := by
  rw [List.prod_eq_foldl, List.foldl_map]
  rfl

theorem multiplicity_eq_zero_iff {s : State} {prodUid : String}
    {cps : List (String × CompiledPred)} :
    multiplicity s prodUid cps = 0 ↔
      ∃ e ∈ cps, rowCount s prodUid e.1 e.2 = 0 := by
  rw [multiplicity_eq_prod, List.prod_eq_zero_iff]
  simp only [List.mem_map]

theorem rowCount_eq_zero_iff {s : State} {prod : Product} {puid : String}
    {p : CompiledPred} :
    rowCount s prod.uid puid p = 0 ↔
      specFilterSatisfied s prod puid p = false := by
  rw [rowCount, List.length_eq_zero, List.filter_eq_nil_iff,
    specFilterSatisfied]
  rw [Bool.eq_false_iff]
  simp [List.any_eq_true]

theorem multiplicity_ne_zero_iff_all {s : State} {prod : Product}
    {cps : List (String × CompiledPred)} :
    multiplicity s prod.uid cps ≠ 0 ↔
      cps.all (fun e => specFilterSatisfied s prod e.1 e.2) = true := by
  rw [Ne, multiplicity_eq_zero_iff, List.all_eq_true]
  constructor
  · intro h e he
    rcases hb : specFilterSatisfied s prod e.1 e.2 with _ | _
    · exact absurd ⟨e, he, rowCount_eq_zero_iff.mpr hb⟩ h
    · rfl
  · rintro h ⟨e, he, hz⟩
    have := rowCount_eq_zero_iff.mp hz
    rw [h e he] at this
    exact absurd this (by decide)

theorem mem_joinRows {s : State} {base : List Product}
    {cps : List (String × CompiledPred)} {q : Product} :
    q ∈ joinRows s base cps ↔
      q ∈ base ∧ multiplicity s q.uid cps ≠ 0 := by
  simp only [joinRows, List.mem_flatMap, List.mem_replicate]
  constructor
  · rintro ⟨b, hb, hn, rfl⟩
    exact ⟨hb, hn⟩
  · rintro ⟨hq, hn⟩
    exact ⟨q, hq, hn, rfl⟩

theorem nameFilterList_sublist (products : List Product)
    (name : Option String) :
    List.Sublist (nameFilterList products name) products := by
  cases name with
  | none => exact List.Sublist.refl _
  | some n =>
    rw [nameFilterList]
    split
    · exact List.Sublist.refl _
    · exact List.filter_sublist _

theorem matchedProducts_eq_specMatchedSet (s : State) (name : Option String)
    (cps : List (String × CompiledPred))
    (hnd : (s.products.map Product.uid).Nodup) :
    matchedProducts s name cps = specMatchedSet s name cps := by
  have hbase : (nameFilterList s.products name).map Product.uid |>.Nodup :=
    hnd.sublist ((nameFilterList_sublist s.products name).map Product.uid)
  rw [matchedProducts, listingRows, joinRows, specMatchedSet,
    dedupByUid_flatMap_replicate _ _ hbase]
  refine List.filter_congr ?_
  intro p _
  rw [Bool.eq_iff_iff]
  constructor
  · intro h
    refine multiplicity_ne_zero_iff_all.mp ?_
    simp only [Bool.not_eq_true', beq_eq_false_iff_ne, ne_eq] at h
    exact h
  · intro h
    have := multiplicity_ne_zero_iff_all.mpr h
    simp only [Bool.not_eq_true', beq_eq_false_iff_ne, ne_eq]
    exact this

theorem listingRows_eq_nil {s : State} {name : Option String}
    {cps : List (String × CompiledPred)}
    (h : ∀ p ∈ nameFilterList s.products name,
      multiplicity s p.uid cps = 0) :
    listingRows s name cps = [] := by
  rw [listingRows, joinRows, List.flatMap_eq_nil_iff]
  intro p hp
  rw [h p hp]
  rfl

/-! ## Serialization lemmas -/

theorem serializeAssignment_eq_ok {s : State} {pp : ProductProperty}
    {prop : Property} (hl : lookupProperty s pp.property_uid = some prop) :
    serializeAssignment s pp = .ok
      (if (prop.type == PropertyType.list) = true then
        { uid := prop.uid, name := prop.name,
          val := .listVal pp.value_uid
            (if truthy pp.value_uid = true then
              get_property_value s prop (pp.value_uid.getD "")
            else none) }
      else
        { uid := prop.uid, name := prop.name,
          val := .intVal pp.int_value }) := by
  rw [serializeAssignment, hl]
  by_cases htype : (prop.type == PropertyType.list) = true
  · simp [htype]
  · simp [htype]

theorem serializeAssignment_ok {s : State} {pp : ProductProperty}
    (h : (lookupProperty s pp.property_uid).isSome = true) :
    ∃ out, serializeAssignment s pp = .ok out := by
  obtain ⟨prop, hl⟩ := Option.isSome_iff_exists.mp h
  exact ⟨_, serializeAssignment_eq_ok hl⟩

theorem serializeAssignments_ok {s : State} :
    ∀ {rows : List ProductProperty},
      (∀ pp ∈ rows, (lookupProperty s pp.property_uid).isSome = true) →
      ∃ outs, serializeAssignments s rows = .ok outs
  | [], _ => ⟨[], rfl⟩
  | pp :: rest, h => by
    obtain ⟨out, hout⟩ :=
      serializeAssignment_ok (h pp (List.mem_cons_self _ _))
    obtain ⟨outs, houts⟩ :=
      serializeAssignments_ok (fun q hq => h q (List.mem_cons_of_mem _ hq))
    exact ⟨out :: outs, by rw [serializeAssignments, hout, houts]⟩

theorem serializeProduct_ok {s : State} {p : Product}
    (h : ∀ pp ∈ productAssignments s p.uid,
      (lookupProperty s pp.property_uid).isSome = true) :
    ∃ out, serializeProduct s p = .ok out ∧ out.uid = p.uid ∧
      out.name = p.name := by
  obtain ⟨outs, houts⟩ := serializeAssignments_ok h
  exact ⟨_, by rw [serializeProduct, houts], rfl, rfl⟩

theorem serializeProducts_ok {s : State} :
    ∀ {l : List Product},
      (∀ p ∈ l, ∀ pp ∈ productAssignments s p.uid,
        (lookupProperty s pp.property_uid).isSome = true) →
      ∃ outs, serializeProducts s l = .ok outs
  | [], _ => ⟨[], rfl⟩
  | p :: rest, h => by
    obtain ⟨out, hout, _, _⟩ := serializeProduct_ok
      (h p (List.mem_cons_self _ _))
    obtain ⟨outs, houts⟩ :=
      serializeProducts_ok (fun q hq => h q (List.mem_cons_of_mem _ hq))
    exact ⟨out :: outs, by rw [serializeProducts, hout, houts]⟩

theorem serializeProducts_maps {s : State} :
    ∀ {l : List Product} {outs : List ProductOut},
      serializeProducts s l = .ok outs →
      outs.map ProductOut.uid = l.map Product.uid ∧
        outs.map ProductOut.name = l.map Product.name
  | [], outs, h => by
    rw [serializeProducts] at h
    cases h
    exact ⟨rfl, rfl⟩
  | p :: rest, outs, h => by
    rw [serializeProducts] at h
    cases hout : serializeProduct s p with
    | error e => rw [hout] at h; cases h
    | ok out =>
      rw [hout] at h
      cases houts : serializeProducts s rest with
      | error e => rw [houts] at h; cases h
      | ok outs2 =>
        rw [houts] at h
        cases h
        obtain ⟨h1, h2⟩ := serializeProducts_maps houts
        have huid : out.uid = p.uid ∧ out.name = p.name := by
          rw [serializeProduct] at hout
          cases hser : serializeAssignments s (productAssignments s p.uid) with
          | error e => rw [hser] at hout; cases hout
          | ok pouts => rw [hser] at hout; cases hout; exact ⟨rfl, rfl⟩
        rw [List.map_cons, List.map_cons, List.map_cons, List.map_cons,
          h1, h2, huid.1, huid.2]
        exact ⟨rfl, rfl⟩

/-! ## Facet group-map lemmas -/

theorem sumCounts_bumpKey :
    ∀ (g : List (Option String × Nat)) (k : Option String),
      sumCounts (bumpKey g k) = sumCounts g + 1
  | [], k => by simp [bumpKey, sumCounts]
  | e :: rest, k => by
    rw [bumpKey]
    split
    · simp only [sumCounts, List.map_cons, List.sum_cons]
      omega
    · have ih := sumCounts_bumpKey rest k
      simp only [sumCounts, List.map_cons, List.sum_cons] at ih ⊢
      omega

theorem sumCounts_foldl_bumpKey :
    ∀ (rows : List ProductProperty) (acc : List (Option String × Nat)),
      sumCounts (rows.foldl (fun g pp => bumpKey g pp.value_uid) acc)
        = sumCounts acc + rows.length
  | [], acc => by simp
  | pp :: rest, acc => by
    rw [List.foldl_cons, sumCounts_foldl_bumpKey rest, sumCounts_bumpKey,
      List.length_cons]
    omega

theorem sumCounts_buildGroups (rows : List ProductProperty) :
    sumCounts (buildGroups rows) = rows.length := by
  rw [buildGroups, sumCounts_foldl_bumpKey]
  simp [sumCounts]

theorem mem_bumpKey {e : Option String × Nat} :
    ∀ {g : List (Option String × Nat)} {k : Option String},
      e ∈ bumpKey g k → (∃ e2 ∈ g, e.1 = e2.1) ∨ e.1 = k
  | [], k, h => by
    rw [bumpKey] at h
    rcases List.mem_singleton.mp h with rfl
    exact Or.inr rfl
  | e2 :: rest, k, h => by
    rw [bumpKey] at h
    split at h
    · rcases List.mem_cons.mp h with rfl | h
      · exact Or.inl ⟨e2, List.mem_cons_self _ _, rfl⟩
      · exact Or.inl ⟨e, List.mem_cons_of_mem _ h, rfl⟩
    · rcases List.mem_cons.mp h with rfl | h
      · exact Or.inl ⟨e, List.mem_cons_self _ _, rfl⟩
      · rcases mem_bumpKey h with ⟨e3, he3, hk⟩ | hk
        · exact Or.inl ⟨e3, List.mem_cons_of_mem _ he3, hk⟩
        · exact Or.inr hk

theorem mem_foldl_bumpKey {e : Option String × Nat} :
    ∀ {rows : List ProductProperty} {acc : List (Option String × Nat)},
      e ∈ rows.foldl (fun g pp => bumpKey g pp.value_uid) acc →
      (∃ e2 ∈ acc, e.1 = e2.1) ∨ ∃ pp ∈ rows, e.1 = pp.value_uid
  | [], acc, h => Or.inl ⟨e, h, rfl⟩
  | pp :: rest, acc, h => by
    rw [List.foldl_cons] at h
    rcases mem_foldl_bumpKey h with ⟨e2, he2, hk⟩ | ⟨pp2, hpp2, hk⟩
    · rcases mem_bumpKey he2 with ⟨e3, he3, hk2⟩ | hk2
      · exact Or.inl ⟨e3, he3, hk.trans hk2⟩
      · exact Or.inr ⟨pp, List.mem_cons_self _ _, hk.trans hk2⟩
    · exact Or.inr ⟨pp2, List.mem_cons_of_mem _ hpp2, hk⟩

theorem mem_buildGroups {rows : List ProductProperty}
    {e : Option String × Nat} (h : e ∈ buildGroups rows) :
    ∃ pp ∈ rows, e.1 = pp.value_uid := by
  rcases mem_foldl_bumpKey h with ⟨e2, he2, _⟩ | h2
  · exact absurd he2 (List.not_mem_nil e2)
  · exact h2

/-! ## Predicate compilation ignores bounds next to a set predicate -/

theorem compileCondition_clearBounds {c : Condition} (h : c.values ≠ []) :
    compileCondition { c with fromBound := none, toBound := none }
      = compileCondition c := by
  have hne : (c.values == []) = false := beq_eq_false_iff_ne.mpr h
  rw [compileCondition, compileCondition]
  simp only [hne]
  rfl

theorem compileFilters_clearBounds {x : String} :
    ∀ {filters : List (String × Condition)},
      (∀ e ∈ filters, e.1 = x → e.2.values ≠ []) →
      compileFilters (clearBounds filters x) = compileFilters filters
  | [], _ => rfl
  | (k, c) :: rest, h => by
    have htail : compileFilters (clearBounds rest x) = compileFilters rest :=
      compileFilters_clearBounds (fun e he => h e (List.mem_cons_of_mem _ he))
    rw [clearBounds] at htail
    rw [clearBounds, List.map_cons]
    by_cases hkx : k = x
    · have hval : c.values ≠ [] := h (k, c) (List.mem_cons_self _ _) hkx
      rw [if_pos (show (((k, c).1 == x) = true) from by simp [hkx])]
      rw [compileFilters, compileFilters,
        compileCondition_clearBounds hval, htail]
    · rw [if_neg (show ¬ (((k, c).1 == x) = true) from by simp [hkx])]
      rw [compileFilters, compileFilters, htail]

/-- **C5**: when the parsed filters give property `x` a nonempty value
set (a bare set-membership key arrived) together with a range bound, both
endpoints behave exactly as if the `_from`/`_to` bounds of `x` were
erased: only the set-membership predicate is applied. -/
theorem c5_set_membership_overrides_range (s : State)
    (page page_size : Nat) (name : Option String) (sort : SortKey)
    (raw : List (String × String)) (x : String)
    (_hboth : ∃ e ∈ parseFilters (dictItems raw), e.1 = x ∧
      e.2.values ≠ [] ∧
      (truthy e.2.fromBound = true ∨ truthy e.2.toBound = true))
    (hall : ∀ e ∈ parseFilters (dictItems raw), e.1 = x →
      e.2.values ≠ []) :
    get_catalog s page page_size name sort raw
      = catalogCore s page page_size name sort
          (clearBounds (parseFilters (dictItems raw)) x) ∧
    catalog_filter s name raw
      = facetCore s name (clearBounds (parseFilters (dictItems raw)) x) := by
  constructor
  · rw [get_catalog, catalogCore, catalogCore,
      compileFilters_clearBounds hall]
  · rw [catalog_filter, facetCore, facetCore,
      compileFilters_clearBounds hall]

/-- Witness for C5 at a concrete state and request carrying both a bare
`property_p` key and a `property_p_from` key. -/
theorem c5_witness :
    get_catalog s5w 1 10 none .uid raw5
      = catalogCore s5w 1 10 none .uid
          (clearBounds (parseFilters (dictItems raw5)) "p") ∧
    catalog_filter s5w none raw5
      = facetCore s5w none (clearBounds (parseFilters (dictItems raw5)) "p") :=
  c5_set_membership_overrides_range s5w 1 10 none .uid raw5 "p"
    ⟨("p", { fromBound := some "5", toBound := none, values := ["v1"] }),
      by decide, by decide, by decide, Or.inl (by decide)⟩
    (by decide)

/-! ## Attribute validation lemmas for product creation -/

theorem attrOK_some {s : State} {b : ProductPropertyCreate}
    {prop : Property} (hl : lookupProperty s b.uid = some prop) :
    attrOK s b =
      (if (prop.type == PropertyType.list) = true then
        truthy b.value_uid && legalValue s b.uid (b.value_uid.getD "")
      else b.value.isSome) := by
  rw [attrOK, hl]

theorem validateAttrs_cons_none {s : State} {prodUid : String}
    {b : ProductPropertyCreate} {rest : List ProductPropertyCreate}
    (hl : lookupProperty s b.uid = none) :
    validateAttrs s prodUid (b :: rest)
      = .error (.unknownProperty b.uid) := by
  rw [validateAttrs, hl]

theorem validateAttrs_cons_some {s : State} {prodUid : String}
    {b : ProductPropertyCreate} {rest : List ProductPropertyCreate}
    {prop : Property} (hl : lookupProperty s b.uid = some prop) :
    validateAttrs s prodUid (b :: rest) =
      (if (prop.type == PropertyType.list) = true then
        if (!truthy b.value_uid) = true then
          .error (.missingValueUid b.uid)
        else if (!legalValue s b.uid (b.value_uid.getD "")) = true then
          .error (.invalidValueUid b.uid (b.value_uid.getD ""))
        else
          match validateAttrs s prodUid rest with
          | .error e => .error e
          | .ok rows =>
            .ok ({ product_uid := prodUid, property_uid := b.uid,
                   int_value := none, value_uid := b.value_uid } :: rows)
      else
        match b.value with
        | none => .error (.missingIntValue b.uid)
        | some v =>
          match validateAttrs s prodUid rest with
          | .error e => .error e
          | .ok rows =>
            .ok ({ product_uid := prodUid, property_uid := b.uid,
                   int_value := some v, value_uid := none } :: rows)) := by
  rw [validateAttrs, hl]

theorem validateAttrs_cons_error {s : State} {prodUid : String}
    {b : ProductPropertyCreate} {rest : List ProductPropertyCreate}
    {e : ApiErr} (hb : attrOK s b = true)
    (hr : validateAttrs s prodUid rest = .error e) :
    validateAttrs s prodUid (b :: rest) = .error e := by
  cases hl : lookupProperty s b.uid with
  | none => rw [attrOK, hl] at hb; cases hb
  | some prop =>
    rw [attrOK_some hl] at hb
    rw [validateAttrs_cons_some hl]
    by_cases htype : (prop.type == PropertyType.list) = true
    · rw [if_pos htype] at hb
      rw [if_pos htype]
      simp only [Bool.and_eq_true] at hb
      obtain ⟨ht, hlegal⟩ := hb
      rw [if_neg (by rw [ht]; simp), if_neg (by rw [hlegal]; simp), hr]
    · rw [if_neg htype] at hb
      rw [if_neg htype]
      cases hv : b.value with
      | none => rw [hv] at hb; cases hb
      | some v => simp only [hr]

theorem validateAttrs_first_unknown {s : State} {prodUid : String} :
    ∀ (pre : List ProductPropertyCreate) (a : ProductPropertyCreate)
      (post : List ProductPropertyCreate),
      lookupProperty s a.uid = none →
      (∀ b ∈ pre, attrOK s b = true) →
      validateAttrs s prodUid (pre ++ a :: post)
        = .error (.unknownProperty a.uid)
  | [], a, post, ha, _ => by
    rw [List.nil_append]
    exact validateAttrs_cons_none ha
  | b :: pre, a, post, ha, hpre => by
    rw [List.cons_append]
    exact validateAttrs_cons_error (hpre b (List.mem_cons_self _ _))
      (validateAttrs_first_unknown pre a post ha
        (fun q hq => hpre q (List.mem_cons_of_mem _ hq)))

theorem validateAttrs_error_of_unknown {s : State} (prodUid : String) :
    ∀ {attrs : List ProductPropertyCreate},
      (∃ a ∈ attrs, lookupProperty s a.uid = none) →
      ∃ e, validateAttrs s prodUid attrs = .error e
  | [], h => absurd h (by simp)
  | b :: rest, h => by
    cases hl : lookupProperty s b.uid with
    | none => exact ⟨.unknownProperty b.uid, validateAttrs_cons_none hl⟩
    | some prop =>
      have hrest : ∃ a ∈ rest, lookupProperty s a.uid = none := by
        obtain ⟨a, ha, hnone⟩ := h
        rcases List.mem_cons.mp ha with rfl | ha
        · rw [hl] at hnone; cases hnone
        · exact ⟨a, ha, hnone⟩
      obtain ⟨e, he⟩ := validateAttrs_error_of_unknown prodUid hrest
      rw [validateAttrs_cons_some hl]
      by_cases htype : (prop.type == PropertyType.list) = true
      · rw [if_pos htype]
        by_cases ht : truthy b.value_uid = true
        · rw [if_neg (by rw [ht]; simp)]
          by_cases hlegal : legalValue s b.uid (b.value_uid.getD "") = true
          · rw [if_neg (by rw [hlegal]; simp), he]
            exact ⟨e, rfl⟩
          · rw [Bool.not_eq_true] at hlegal
            rw [if_pos (by rw [hlegal]; simp)]
            exact ⟨_, rfl⟩
        · rw [Bool.not_eq_true] at ht
          rw [if_pos (by rw [ht]; simp)]
          exact ⟨_, rfl⟩
      · rw [if_neg htype]
        cases hv : b.value with
        | none => exact ⟨_, rfl⟩
        | some v =>
          simp only [he]
          exact ⟨e, rfl⟩

/-- **C8** (amended): a creation request containing an attribute on an
unknown property always fails, leaving the store unchanged (nothing is
persisted before all validations pass); the error is `UnknownProperty`
for the first such attribute provided the product uid is fresh and every
earlier attribute passes validation — otherwise an earlier check
(duplicate uid, missing/illegal value) reports its own error first. -/
theorem c8_unknown_property_all_or_nothing :
    (∀ (s : State) (req : ProductCreate),
      (∃ a ∈ req.properties, lookupProperty s a.uid = none) →
      (∃ e, create_product s req = .error e) ∧ runCreate s req = s) ∧
    (∀ (s : State) (req : ProductCreate)
      (pre post : List ProductPropertyCreate) (a : ProductPropertyCreate),
      req.properties = pre ++ a :: post →
      lookupProperty s a.uid = none →
      (∀ b ∈ pre, attrOK s b = true) →
      s.products.all (fun p => !(p.uid == req.uid)) = true →
      create_product s req = .error (.unknownProperty a.uid)) := by
  constructor
  · intro s req h
    have herr : ∃ e, create_product s req = .error e := by
      rw [create_product]
      split
      · exact ⟨.duplicateProductUid, rfl⟩
      · obtain ⟨e, he⟩ := validateAttrs_error_of_unknown req.uid h
        rw [he]
        exact ⟨e, rfl⟩
    refine ⟨herr, ?_⟩
    obtain ⟨e, he⟩ := herr
    rw [runCreate, he]
  · intro s req pre post a hprops ha hpre hfresh
    have hdup : s.products.any (fun p => p.uid == req.uid) = false := by
      rw [List.any_eq_false]
      intro p hp
      have := List.all_eq_true.mp hfresh p hp
      simp only [Bool.not_eq_true'] at this
      simp [this]
    rw [create_product, if_neg (by rw [hdup]; simp), hprops,
      validateAttrs_first_unknown pre a post ha hpre]

/-- Witness for C8 at a concrete fresh-uid request whose only attribute
references the unknown property `nope`. -/
theorem c8_witness :
    (∃ e, create_product s8w req8fresh = .error e) ∧
    runCreate s8w req8fresh = s8w ∧
    create_product s8w req8fresh
      = .error (.unknownProperty "nope") := by
  refine ⟨?_, ?_, ?_⟩
  · exact (c8_unknown_property_all_or_nothing.1 s8w req8fresh
      ⟨{ uid := "nope", value_uid := none, value := none }, by decide,
        by decide⟩).1
  · exact (c8_unknown_property_all_or_nothing.1 s8w req8fresh
      ⟨{ uid := "nope", value_uid := none, value := none }, by decide,
        by decide⟩).2
  · exact c8_unknown_property_all_or_nothing.2 s8w req8fresh [] []
      { uid := "nope", value_uid := none, value := none }
      rfl (by decide) (by simp) (by decide)

/-- **C2** (amended): for every enumerated property of the schema, the
facet endpoint reports the group map built from the assignment rows of
the matched products on that property; the per-value counts sum to the
number of such assignment rows (a product contributes once per
assignment, so with multiple assignments it is counted more than once),
and every group key stems from such an assignment — a product with no
assignment on the property contributes to no group. -/
theorem c2_facet_sums_assignment_rows (s : State) (name : Option String)
    (raw : List (String × String)) (resp : FacetResponse) (prop : Property)
    (h : catalog_filter s name raw = .ok resp)
    (hp : prop ∈ s.properties) (ht : prop.type = PropertyType.list) :
    ∃ cps, compileFilters (parseFilters (dictItems raw)) = .ok cps ∧
      resp.count = (matchedProducts s name cps).length ∧
      (prop.uid, FacetStat.groups (buildGroups (facetRows s
          ((matchedProducts s name cps).map Product.uid) prop.uid)))
        ∈ resp.stats ∧
      sumCounts (buildGroups (facetRows s
          ((matchedProducts s name cps).map Product.uid) prop.uid))
        = (facetRows s ((matchedProducts s name cps).map Product.uid)
            prop.uid).length ∧
      ∀ e ∈ buildGroups (facetRows s
          ((matchedProducts s name cps).map Product.uid) prop.uid),
        ∃ pp ∈ facetRows s ((matchedProducts s name cps).map Product.uid)
          prop.uid, e.1 = pp.value_uid := by
  rw [catalog_filter, facetCore] at h
  cases hc : compileFilters (parseFilters (dictItems raw)) with
  | error e => rw [hc] at h; cases h
  | ok cps =>
    rw [hc] at h
    replace h : facetExec s name cps = .ok resp := h
    rw [facetExec] at h
    injection h with h
    subst h
    refine ⟨cps, rfl, rfl, ?_, sumCounts_buildGroups _,
      fun e he => mem_buildGroups he⟩
    have hstat : facetStatOf prop (facetRows s
        ((matchedProducts s name cps).map Product.uid) prop.uid)
        = FacetStat.groups (buildGroups (facetRows s
            ((matchedProducts s name cps).map Product.uid) prop.uid)) := by
      rw [facetStatOf, if_pos (by rw [ht]; rfl)]
    exact hstat ▸ List.mem_map.mpr ⟨prop, hp, rfl⟩

/-- Witness for C2 (amended) at the concrete two-assignment state. -/
theorem c2_witness :
    ∃ cps, compileFilters (parseFilters (dictItems [])) = .ok cps ∧
      resp2w.count = (matchedProducts s2w none cps).length ∧
      (("p" : String), FacetStat.groups (buildGroups (facetRows s2w
          ((matchedProducts s2w none cps).map Product.uid) "p")))
        ∈ resp2w.stats ∧
      sumCounts (buildGroups (facetRows s2w
          ((matchedProducts s2w none cps).map Product.uid) "p"))
        = (facetRows s2w ((matchedProducts s2w none cps).map Product.uid)
            "p").length ∧
      ∀ e ∈ buildGroups (facetRows s2w
          ((matchedProducts s2w none cps).map Product.uid) "p"),
        ∃ pp ∈ facetRows s2w ((matchedProducts s2w none cps).map Product.uid)
          "p", e.1 = pp.value_uid :=
  c2_facet_sums_assignment_rows s2w none [] resp2w
    { uid := "p", name := "P", type := .list } (by decide) (by decide) rfl

/-- **C4** (amended): every page the listing returns is ordered by the
requested sort column (weakly — under the `name` sort, products of equal
name stay in storage order rather than being tie-broken by uid, as the
counterexample shows; the `uid` sort is total, hence deterministic). -/
theorem c4_page_ordered_by_sort_key (s : State) (page page_size : Nat)
    (name : Option String) (sort : SortKey) (raw : List (String × String))
    (resp : CatalogResponse)
    (h : get_catalog s page page_size name sort raw = .ok resp) :
    List.Pairwise (fun a b : String => strLe a b = true)
      (resp.products.map (outSortVal sort)) := by
  rw [get_catalog, catalogCore] at h
  cases hc : compileFilters (parseFilters (dictItems raw)) with
  | error e => rw [hc] at h; cases h
  | ok cps =>
    rw [hc] at h
    replace h : catalogExec s page page_size name sort cps = .ok resp := h
    rw [catalogExec] at h
    cases hs : serializeProducts s
        (pageEntities s page page_size name sort cps) with
    | error e => rw [hs] at h; cases h
    | ok outs =>
      rw [hs] at h
      have hproj : resp.products = outs := by
        injection h with h2
        rw [← h2]
      obtain ⟨hu, hn⟩ := serializeProducts_maps hs
      have hsorted : SortedBy sort (pageEntities s page page_size name
          sort cps) := by
        have hsub : List.Sublist
            (pageEntities s page page_size name sort cps)
            (sortRows sort (listingRows s name cps)) :=
          (dedupByUid_sublist _).trans
            ((List.take_sublist _ _).trans (List.drop_sublist _ _))
        exact (sortedBy_sortRows sort (listingRows s name cps)).sublist hsub
      have hmap : outs.map (outSortVal sort)
          = (pageEntities s page page_size name sort cps).map
              (sortVal sort) := by
        cases sort
        · exact hu
        · exact hn
      rw [hproj, hmap]
      exact List.pairwise_map.mpr hsorted

/-- Witness for C4 (amended) at the two equal-named products. -/
theorem c4_witness :
    List.Pairwise (fun a b : String => strLe a b = true)
      (resp4w.products.map (outSortVal .name)) :=
  c4_page_ordered_by_sort_key s4w 1 10 none .name [] resp4w (by decide)

/-- **C10**: filter keys and values are never validated against the
Attribute Schema Store: whenever the range bounds compile (and no
assignment row dangles, so serialization cannot crash), the listing
succeeds; its `count` is exactly the number of products having, for
every parsed filter — including filters on property uids or value
tokens unknown to the schema — at least one satisfying assignment, every
returned product is such a product, and when no product satisfies the
filters the page is empty. -/
theorem c10_unknown_filters_narrow_by_assignments (s : State)
    (page page_size : Nat) (name : Option String) (sort : SortKey)
    (raw : List (String × String)) (cps : List (String × CompiledPred))
    (hc : compileFilters (parseFilters (dictItems raw)) = .ok cps)
    (hnd : (s.products.map Product.uid).Nodup)
    (hdang : ∀ pp ∈ s.product_properties,
      (lookupProperty s pp.property_uid).isSome = true) :
    ∃ resp, get_catalog s page page_size name sort raw = .ok resp ∧
      resp.count = (specMatchedSet s name cps).length ∧
      (∀ po ∈ resp.products, ∃ prod ∈ specMatchedSet s name cps,
        po.uid = prod.uid) ∧
      (specMatchedSet s name cps = [] → resp.products = []) := by
  have hser : ∀ p ∈ pageEntities s page page_size name sort cps,
      ∀ pp ∈ productAssignments s p.uid,
        (lookupProperty s pp.property_uid).isSome = true := by
    intro p _ pp hpp
    exact hdang pp ((List.filter_sublist _).mem hpp)
  obtain ⟨outs, houts⟩ := serializeProducts_ok hser
  have hcall : get_catalog s page page_size name sort raw
      = .ok { products := outs,
              count := (matchedProducts s name cps).length } := by
    rw [get_catalog, catalogCore, hc]
    show catalogExec s page page_size name sort cps = _
    rw [catalogExec, houts]
  have hmatched : matchedProducts s name cps = specMatchedSet s name cps :=
    matchedProducts_eq_specMatchedSet s name cps hnd
  refine ⟨_, hcall, by rw [hmatched], ?_, ?_⟩
  · intro po hpo
    have hpo_uid : po.uid ∈ outs.map ProductOut.uid :=
      List.mem_map.mpr ⟨po, hpo, rfl⟩
    rw [(serializeProducts_maps houts).1] at hpo_uid
    obtain ⟨p, hp, hpu⟩ := List.mem_map.mp hpo_uid
    have hp_rows : p ∈ listingRows s name cps := by
      have hsub : List.Sublist
          (pageEntities s page page_size name sort cps)
          (sortRows sort (listingRows s name cps)) :=
        (dedupByUid_sublist _).trans
          ((List.take_sublist _ _).trans (List.drop_sublist _ _))
      exact mem_sortRows.mp (hsub.mem hp)
    obtain ⟨hbase, hmult⟩ := mem_joinRows.mp hp_rows
    refine ⟨p, ?_, hpu.symm⟩
    rw [specMatchedSet, List.mem_filter]
    exact ⟨hbase, multiplicity_ne_zero_iff_all.mp hmult⟩
  · intro hempty
    have hrows : listingRows s name cps = [] := by
      refine listingRows_eq_nil ?_
      intro p hp
      by_contra hmult
      have : p ∈ specMatchedSet s name cps := by
        rw [specMatchedSet, List.mem_filter]
        exact ⟨hp, multiplicity_ne_zero_iff_all.mp hmult⟩
      rw [hempty] at this
      exact List.not_mem_nil p this
    have hpage : pageEntities s page page_size name sort cps = [] := by
      rw [pageEntities, hrows,
        show sortRows sort [] = [] from rfl, List.drop_nil, List.take_nil]
      rfl
    rw [hpage] at houts
    cases houts
    rfl

/-- Witness for C10 at a state with one product and a filter on the
schema-unknown property uid `zzz`: the call succeeds with an empty,
zero-count result. -/
theorem c10_witness :
    ∃ resp, get_catalog s10w 1 10 none .uid raw10 = .ok resp ∧
      resp.count = (specMatchedSet s10w none
        [("zzz", CompiledPred.inSet ["v"])]).length ∧
      (∀ po ∈ resp.products, ∃ prod ∈ specMatchedSet s10w none
        [("zzz", CompiledPred.inSet ["v"])], po.uid = prod.uid) ∧
      (specMatchedSet s10w none [("zzz", CompiledPred.inSet ["v"])] = [] →
        resp.products = []) :=
  c10_unknown_filters_narrow_by_assignments s10w 1 10 none .uid raw10
    [("zzz", CompiledPred.inSet ["v"])] (by decide) (by decide) (by decide)

end Catalog
